import Mathlib

/-!
Verification of the SAMPIC calibration converter (src/to_cal_json.py).

Shallow embedding of the calibration pipeline: the run parser
(parse_calibration_file), fit-bound resolution (handle_optional_parameters),
per-cell fit orchestration (process_cell / convert_calibration_file), the JSON
artifact codec (json.dump / json.load on the artifact dictionaries), and the
multi-board merge (merge).

Modelling conventions:
* a text line is modelled after Python's line.split(" "): a list of tokens,
  each token being some q when the token is float-convertable with value q
  (floats are modelled exactly as rationals), and none otherwise;
* Python dicts that the program builds with known keys become structures;
  the one dict with data-dependent keys (the parameters mapping of an
  artifact) becomes an association list whose keys mirror Python values:
  either an int (fresh conversion) or a str (loaded from JSON);
* exceptions become Except / Option values.
-/

namespace ToCalJson

/-- Constant CHANNELS_NO of parse_calibration_file. -/
def CHANNELS_NO : Nat := 16

/-- Constant SAMPIC_NO of parse_calibration_file. -/
def SAMPIC_NO : Nat := 2

/-- Constant VALUES_NO = CHANNELS_NO * SAMPIC_NO of parse_calibration_file. -/
def VALUES_NO : Nat := CHANNELS_NO * SAMPIC_NO

/-- Constant CELLS_NO of parse_calibration_file. -/
def CELLS_NO : Nat := 64

/-- A whitespace-separated token of an input line: some q when the token is
float-convertable (float_convertable in the source) with numeric value q,
none for a non-numeric token. -/
abbrev Token := Option Rat

/-- A line of the input file, as tokenized by line.split(" "). -/
abbrev Line := List Token

/-- Sequencing of a list of fallible computations, modelling a Python loop
that raises on the first failing element (returns none) and otherwise
collects the results in order. -/
def mapMO {α β : Type} (f : α → Option β) : List α → Option (List β)
  | [] => some []
  | a :: l =>
    match f a with
    | none => none
    | some b =>
      match mapMO f l with
      | none => none
      | some bs => some (b :: bs)

/-- Numeric value of a run of decimal digit characters, as Python int(). -/
def digitsToNat (ds : List Char) : Nat :=
  ds.foldl (fun a c => 10 * a + (c.toNat - Char.toNat '0')) 0

/-- Attempt to match the regex _db(\d+) (re.IGNORECASE) at the head of the
character list: an underscore, then d/D, then b/B, then a maximal nonempty
run of digits, whose value is group(1). -/
def matchDbAt : List Char → Option Nat
  | c1 :: c2 :: c3 :: rest =>
    if c1 = '_' ∧ (c2 = 'd' ∨ c2 = 'D') ∧ (c3 = 'b' ∨ c3 = 'B') then
      match rest.takeWhile Char.isDigit with
      | [] => none
      | d :: ds => some (digitsToNat (d :: ds))
    else none
  | _ => none

/-- Board id extracted from the file name: re.search of _db(\d+) with
re.IGNORECASE, i.e. the leftmost occurrence of _db followed by digits.
Returns none when the pattern does not occur (AttributeError on group(1)
in the source, turned into the board-id FileParseException). -/
def findBoardId : List Char → Option Nat
  | [] => none
  | c :: cs =>
    match matchDbAt (c :: cs) with
    | some n => some n
    | none => findBoardId cs

/-- One channel-block record, the temp_val dictionary of the source copied
per completed block: keys db, time_offset, sampic, channel, cells in that
insertion order.  Before conversion, cells holds the raw 64 cell rows; after
conversion it holds the 64 per-cell fit-parameter lists. -/
structure ChannelRec where
  db : Int
  time_offset : Int
  sampic : Int
  channel : Int
  cells : List (List Rat)
deriving DecidableEq

/-- A parsed calibration run: the output dictionary of
parse_calibration_file.  The values dict has a single key (the board id from
the file name), flattened here to the db field plus its block list; voltage
is none when no data line was ever seen (the key is then absent). -/
structure CalRun where
  db : Int
  voltage : Option (List Rat)
  blocks : List ChannelRec
deriving DecidableEq

/-- Failures of parse_calibration_file: the board-id FileParseException, a
ValueError from float() on a malformed data line, and the block-count
FileParseException carrying the expected and the actual count. -/
inductive PErr where
  | noBoardId
  | badFloat
  | countMismatch (expected actual : Nat)
deriving DecidableEq

/-- Mutable state of the parsing loop: the first/voltage flag, line_counter,
temp_cells, and the accumulated block list output["values"][db]. -/
structure PState where
  voltage : Option (List Rat)
  lineCounter : Nat
  tempCells : List (List Rat)
  blocks : List ChannelRec
deriving DecidableEq

/-- Loop state before the first line: first=True, line_counter=1, empty
temp_cells and block list. -/
def initState : PState := { voltage := none, lineCounter := 1, tempCells := [], blocks := [] }

/-- parse_line of the source: map float over line.split(" ")[:-1]; a
non-convertable token among those raises ValueError. -/
def parse_line (l : Line) : Except PErr (List Rat) :=
  match mapMO (fun t => t) l.dropLast with
  | some vals => Except.ok vals
  | none => Except.error PErr.badFloat

/-- Whether the line is a data line: float_convertable(line.split(" ")[0]). -/
def isDataLine (l : Line) : Bool :=
  match l with
  | some _ :: _ => true
  | _ => false

/-- One iteration of the parsing loop of parse_calibration_file on one line:
skip non-data lines; the first data line becomes the voltage reference; every
further data line is appended to temp_cells, and when line_counter % CELLS_NO
equals 0 a block with the positional sampic/channel indices is emitted and
temp_cells reset; line_counter increments on every non-first data line. -/
def procLine (db : Int) (st : PState) (l : Line) : Except PErr PState :=
  match l with
  | some _ :: _ =>
    match st.voltage with
    | none =>
      match parse_line l with
      | Except.error e => Except.error e
      | Except.ok v => Except.ok { st with voltage := some v }
    | some _ =>
      match parse_line l with
      | Except.error e => Except.error e
      | Except.ok row =>
        if st.lineCounter % CELLS_NO = 0 then
          Except.ok { voltage := st.voltage
                      lineCounter := st.lineCounter + 1
                      tempCells := []
                      blocks := st.blocks ++
                        [{ db := db
                           time_offset := 0
                           sampic := 1 - (((st.lineCounter - 1) / CELLS_NO / CHANNELS_NO : Nat) : Int)
                           channel := (((st.lineCounter - 1) / CELLS_NO % 16 : Nat) : Int)
                           cells := st.tempCells ++ [row] }] }
        else
          Except.ok { st with lineCounter := st.lineCounter + 1
                              tempCells := st.tempCells ++ [row] }
  | _ => Except.ok st

/-- The parsing loop over all lines of the file, propagating the first
raised error. -/
def runLines (db : Int) : PState → List Line → Except PErr PState
  | st, [] => Except.ok st
  | st, l :: ls =>
    match procLine db st l with
    | Except.error e => Except.error e
    | Except.ok st' => runLines db st' ls

/-- parse_calibration_file of the source: the board id is taken from the
file name (board-id FileParseException when absent), the lines are folded by
the parsing loop, and the completed block count must equal VALUES_NO,
otherwise the count FileParseException carries expected and actual counts. -/
def parse_calibration_file (file_name : List Char) (lines : List Line) : Except PErr CalRun :=
  match findBoardId file_name with
  | none => Except.error PErr.noBoardId
  | some n =>
    match runLines (Int.ofNat n) initState lines with
    | Except.error e => Except.error e
    | Except.ok st =>
      if st.blocks.length = VALUES_NO then
        Except.ok { db := Int.ofNat n, voltage := st.voltage, blocks := st.blocks }
      else
        Except.error (PErr.countMismatch VALUES_NO st.blocks.length)

/-- The external numeric-fitting capability: given the x sequence and the y
sequence it returns the fitted parameter vector (graph.Fit on the TF1 object
plus the parameters.Value loop in the source). -/
abbrev FitFun := List Rat → List Rat → List Rat

/-- Python sorted() on numeric values: ascending sort. -/
def sortedR (l : List Rat) : List Rat := l.insertionSort (· ≤ ·)

/-- process_cell of the source: the fit capability is invoked on
sorted(voltage) as x and sorted(cell) as y, the two lists sorted
independently of each other. -/
def process_cell (voltage cell : List Rat) (fit : FitFun) : List Rat :=
  fit (sortedR voltage) (sortedR cell)

/-- Key of the parameters mapping of an artifact: a Python int for a freshly
converted artifact, a Python str for one loaded from JSON. -/
inductive JKey where
  | int (n : Int)
  | str (s : String)
deriving DecidableEq

/-- A calibration artifact: the formula string and the board-keyed mapping
to channel records, modelled as an insertion-ordered association list. -/
structure CalibrationArtifact where
  formula : String
  parameters : List (JKey × List ChannelRec)
deriving DecidableEq

/-- convert_calibration_file of the source: every cell of every block is
replaced by its fit parameters from process_cell, the voltage key is deleted,
values is renamed to parameters (still keyed by the int board id), and the
formula string is stored.  Reading data["voltage"] (and the final del) raises
KeyError when the voltage key is absent, hence the Option result. -/
def convert_calibration_file (data : CalRun) (function : String) (fit : FitFun) :
    Option CalibrationArtifact :=
  data.voltage.map (fun v =>
    { formula := function
      parameters := [(JKey.int data.db,
        data.blocks.map (fun value =>
          { value with cells := value.cells.map (fun cell => process_cell v cell fit) }))] })

/-- Failures of handle_optional_parameters: KeyError on a run without a
voltage key, ValueError of max() on an empty voltage list, ValueError of
min() on an empty batch. -/
inductive ResolveErr where
  | keyError
  | maxEmpty
  | minEmpty
deriving DecidableEq

/-- The per-run maxima max(float(x) for x in data["voltage"]) taken over the
batch, in batch order, with Python's exceptions on an absent key or an empty
voltage list. -/
def maxesOf : List CalRun → Except ResolveErr (List Rat)
  | [] => Except.ok []
  | r :: rs =>
    match r.voltage with
    | none => Except.error ResolveErr.keyError
    | some [] => Except.error ResolveErr.maxEmpty
    | some (x :: xs) =>
      match maxesOf rs with
      | Except.error e => Except.error e
      | Except.ok ms => Except.ok (xs.foldl max x :: ms)

/-- handle_optional_parameters of the source: fit_from defaults to 0 when
absent; fit_to, when absent, becomes the minimum over the parsed batch of
each run's maximum voltage value; explicitly supplied bounds are returned as
given (the historical clamping of both bounds is commented out in the
source). -/
def handle_optional_parameters (parsed_data : List CalRun) (fit_from fit_to : Option Rat) :
    Except ResolveErr (Rat × Rat) :=
  match fit_to with
  | some t => Except.ok (fit_from.getD 0, t)
  | none =>
    match maxesOf parsed_data with
    | Except.error e => Except.error e
    | Except.ok [] => Except.error ResolveErr.minEmpty
    | Except.ok (m :: ms) => Except.ok (fit_from.getD 0, ms.foldl min m)

/-- Reference value for theorems: the maximum voltage of one run (0 when the
voltage is absent or empty, a case excluded by the hypotheses that use it). -/
def maxVolt (r : CalRun) : Rat :=
  match r.voltage with
  | some (x :: xs) => xs.foldl max x
  | _ => 0

/-- Reference value for theorems: the minimum over the batch of the per-run
maximum voltage values (0 for an empty batch). -/
def batchFitTo (pd : List CalRun) : Rat :=
  match pd.map maxVolt with
  | [] => 0
  | m :: ms => ms.foldl min m

/-- JSON values, with Python's lexical distinction between ints and floats
preserved (json.dump writes them differently and json.load restores the
distinction); numerics are modelled exactly. -/
inductive Json where
  | jint (n : Int)
  | jnum (q : Rat)
  | jstr (s : String)
  | jarr (xs : List Json)
  | jobj (fields : List (String × Json))

/-- Dictionary key lookup on a JSON object's field list. -/
def getField : List (String × Json) → String → Option Json
  | [], _ => none
  | (k, v) :: fs, key => if k = key then some v else getField fs key

/-- The string json.dump writes for a dictionary key: an int key is silently
coerced to its decimal string form, a str key is written as is. -/
def encKey : JKey → String
  | JKey.int n => toString n
  | JKey.str s => s

/-- json.dump on one channel record dictionary, fields in insertion order. -/
def encRec (r : ChannelRec) : Json :=
  Json.jobj [("db", Json.jint r.db),
             ("time_offset", Json.jint r.time_offset),
             ("sampic", Json.jint r.sampic),
             ("channel", Json.jint r.channel),
             ("cells", Json.jarr (r.cells.map (fun row => Json.jarr (row.map Json.jnum))))]

/-- json.dump on a whole artifact dictionary (ArtifactCodec.encode): the
parameters object keyed by the coerced key strings, then the formula. -/
def encode (a : CalibrationArtifact) : Json :=
  Json.jobj [("parameters", Json.jobj (a.parameters.map (fun p =>
               (encKey p.1, Json.jarr (p.2.map encRec))))),
             ("formula", Json.jstr a.formula)]

/-- Reading one numeric cell parameter back (a JSON float). -/
def decNum : Json → Option Rat
  | Json.jnum q => some q
  | _ => none

/-- Reading one int field back. -/
def decInt : Json → Option Int
  | Json.jint n => some n
  | _ => none

/-- json.load of one channel record back into the record structure. -/
def decRec (j : Json) : Option ChannelRec :=
  match j with
  | Json.jobj fs =>
    match getField fs "db", getField fs "time_offset", getField fs "sampic",
          getField fs "channel", getField fs "cells" with
    | some jdb, some jto, some js, some jc, some (Json.jarr rows) =>
      match decInt jdb, decInt jto, decInt js, decInt jc with
      | some db, some toff, some s, some c =>
        match mapMO (fun r =>
            match r with
            | Json.jarr vs => mapMO decNum vs
            | _ => none) rows with
        | some cells =>
          some { db := db, time_offset := toff, sampic := s, channel := c, cells := cells }
        | none => none
      | _, _, _, _ => none
    | _, _, _, _, _ => none
  | _ => none

/-- json.load of one parameters entry: object keys always come back as
strings, so the decoded key is the str form. -/
def decEntry (e : String × Json) : Option (JKey × List ChannelRec) :=
  match e.2 with
  | Json.jarr recs =>
    match mapMO decRec recs with
    | some rs => some (JKey.str e.1, rs)
    | none => none
  | _ => none

/-- json.load of a persisted artifact back into the artifact structure
(read_cal_json followed by the shape the pipeline reads: the formula string
and the parameters mapping, now keyed by strings). -/
def decode (j : Json) : Option CalibrationArtifact :=
  match j with
  | Json.jobj fs =>
    match getField fs "formula", getField fs "parameters" with
    | some (Json.jstr f), some (Json.jobj entries) =>
      match mapMO decEntry entries with
      | some ps => some { formula := f, parameters := ps }
      | none => none
    | _, _ => none
  | _ => none

/-- An artifact with every parameters key replaced by the string json.dump
writes for it; the encode/decode round trip lands exactly here. -/
def strKeys (a : CalibrationArtifact) : CalibrationArtifact :=
  { formula := a.formula
    parameters := a.parameters.map (fun p => (JKey.str (encKey p.1), p.2)) }

/-- Failures of merge: IndexError of pop() on an empty input list, and the
FileMergeException on a duplicate board key. -/
inductive MergeErr where
  | popEmpty
  | conflict
deriving DecidableEq

/-- The key list of an artifact's parameters mapping. -/
def keysOf (a : CalibrationArtifact) : List JKey := a.parameters.map Prod.fst

/-- Inner loop of merge over one artifact's parameters: a key not yet merged
is appended together with its entry; an already-merged key raises the
FileMergeException. -/
def mergeKeysLoop :
    List JKey → List (JKey × List ChannelRec) → List (JKey × List ChannelRec) →
    Except MergeErr (List JKey × List (JKey × List ChannelRec))
  | mk, mp, [] => Except.ok (mk, mp)
  | mk, mp, (k, v) :: ps =>
    if k ∈ mk then Except.error MergeErr.conflict
    else mergeKeysLoop (mk ++ [k]) (mp ++ [(k, v)]) ps

/-- Outer loop of merge over the remaining artifacts. -/
def mergeArtLoop :
    List JKey → CalibrationArtifact → List CalibrationArtifact →
    Except MergeErr CalibrationArtifact
  | _, acc, [] => Except.ok acc
  | mk, acc, a :: as =>
    match mergeKeysLoop mk acc.parameters a.parameters with
    | Except.error e => Except.error e
    | Except.ok (mk', mp') => mergeArtLoop mk' { acc with parameters := mp' } as

/-- merge of the source: to_merge.pop() takes the last artifact as the base,
then the remaining artifacts are folded in order, raising
FileMergeException on any board key already merged. -/
def merge (xs : List CalibrationArtifact) : Except MergeErr CalibrationArtifact :=
  match xs.getLast? with
  | none => Except.error MergeErr.popEmpty
  | some base => mergeArtLoop (keysOf base) base xs.dropLast

/-- Number of data lines in the input. -/
def countData (lines : List Line) : Nat := lines.countP (fun l => isDataLine l)

/-- A line is clean when it is either not a data line or parses without a
ValueError (every token before the trailing sentinel is numeric). -/
def lineClean (l : Line) : Bool :=
  !(isDataLine l) || (mapMO (fun t => t) l.dropLast).isSome

/-- Number of cell data lines consumed, given the voltage flag at entry: the
first data line of a fresh parse is the voltage line, not a cell line. -/
def dataCountFrom (v : Option (List Rat)) (lines : List Line) : Nat :=
  match v with
  | some _ => countData lines
  | none => countData lines - 1

/-- Number of completed CELLS_NO-line cell blocks contained in the input. -/
def completedBlockCount (lines : List Line) : Nat :=
  (countData lines - 1) / CELLS_NO

/-- Loop invariant of the parsing loop: line_counter counts the consumed
cell lines (64 per emitted block plus the pending temp_cells) starting at 1,
temp_cells never holds a full block, and every emitted block at position g
carries the positional indices sampic = 1 - g/16 and channel = g % 16. -/
def Inv (st : PState) : Prop :=
  st.lineCounter = CELLS_NO * st.blocks.length + st.tempCells.length + 1 ∧
  st.tempCells.length < CELLS_NO ∧
  ∀ g : Nat, ∀ b : ChannelRec, st.blocks[g]? = some b →
    b.sampic = 1 - ((g / CHANNELS_NO : Nat) : Int) ∧
    b.channel = ((g % CHANNELS_NO : Nat) : Int)

lemma inv_init : Inv initState := by
  refine ⟨by simp [initState, CELLS_NO], by simp [initState, CELLS_NO], ?_⟩
  intro g b hb
  simp [initState] at hb

lemma procLine_inv {db : Int} {st : PState} {l : Line} {st' : PState}
    (h : procLine db st l = Except.ok st') (hI : Inv st) : Inv st' := by
  obtain ⟨hc, ht, hf⟩ := hI
  unfold procLine at h
  split at h
  · -- data line
    split at h
    · -- voltage not yet set
      split at h
      · cases h
      · cases h
        exact ⟨hc, ht, hf⟩
    · -- voltage already set
      split at h
      · cases h
      · split at h
        case isTrue hmod =>
          cases h
          refine ⟨?_, ?_, ?_⟩
          · simp only [List.length_append, List.length_cons, List.length_nil]
            simp only [CELLS_NO] at hc ht hmod ⊢
            omega
          · simp [CELLS_NO]
          · intro g b hb
            rcases lt_trichotomy g st.blocks.length with hg | hg | hg
            · rw [List.getElem?_append_left hg] at hb
              exact hf g b hb
            · subst hg
              rw [List.getElem?_append_right (le_refl _)] at hb
              simp only [Nat.sub_self, List.getElem?_cons_zero, Option.some.injEq] at hb
              subst hb
              have h64 : (st.lineCounter - 1) / CELLS_NO = st.blocks.length := by
                simp only [CELLS_NO] at hc ht hmod ⊢
                omega
              rw [h64]
              exact ⟨rfl, rfl⟩
            · rw [List.getElem?_append_right (Nat.le_of_lt hg)] at hb
              have : g - st.blocks.length ≠ 0 := by omega
              simp [List.getElem?_cons, this] at hb
        case isFalse hmod =>
          cases h
          refine ⟨?_, ?_, ?_⟩
          · simp only [List.length_append, List.length_cons, List.length_nil]
            simp only [CELLS_NO] at hc ht hmod ⊢
            omega
          · simp only [List.length_append, List.length_cons, List.length_nil]
            simp only [CELLS_NO] at hc ht hmod ⊢
            omega
          · exact hf
  · -- skipped line
    cases h
    exact ⟨hc, ht, hf⟩

lemma runLines_inv {db : Int} {lines : List Line} {st st' : PState}
    (h : runLines db st lines = Except.ok st') (hI : Inv st) : Inv st' := by
  induction lines generalizing st with
  | nil =>
    unfold runLines at h
    cases h
    exact hI
  | cons l ls ih =>
    unfold runLines at h
    cases hp : procLine db st l with
    | error e => rw [hp] at h; cases h
    | ok st1 => rw [hp] at h; exact ih h (procLine_inv hp hI)

lemma procLine_skip {db : Int} {st : PState} {l : Line} (h : isDataLine l = false) :
    procLine db st l = Except.ok st := by
  cases l with
  | nil => rfl
  | cons t rest =>
    cases t with
    | none => rfl
    | some q => simp [isDataLine] at h

lemma isDataLine_shape {l : Line} (h : isDataLine l = true) :
    ∃ q rest, l = some q :: rest := by
  cases l with
  | nil => simp [isDataLine] at h
  | cons t rest =>
    cases t with
    | none => simp [isDataLine] at h
    | some q => exact ⟨q, rest, rfl⟩

lemma parse_line_ok_of_clean {l : Line} (hd : isDataLine l = true)
    (hcl : lineClean l = true) : ∃ row, parse_line l = Except.ok row := by
  unfold lineClean at hcl
  rw [hd] at hcl
  simp only [Bool.not_true, Bool.false_or] at hcl
  obtain ⟨row, hrow⟩ := Option.isSome_iff_exists.mp hcl
  exact ⟨row, by unfold parse_line; rw [hrow]⟩

lemma procLine_data_fresh {db : Int} {st : PState} {q : Rat} {rest : Line} {row : List Rat}
    (hv : st.voltage = none) (hrow : parse_line (some q :: rest) = Except.ok row) :
    procLine db st (some q :: rest) = Except.ok { st with voltage := some row } := by
  unfold procLine
  rw [hv, hrow]

lemma procLine_data_cell {db : Int} {st : PState} {q : Rat} {rest : Line} {row : List Rat}
    {w : List Rat} (hv : st.voltage = some w) (hrow : parse_line (some q :: rest) = Except.ok row) :
    ∃ st1, procLine db st (some q :: rest) = Except.ok st1 ∧
      st1.voltage = some w ∧ st1.lineCounter = st.lineCounter + 1 := by
  unfold procLine
  simp only [hv, hrow]
  by_cases hmod : st.lineCounter % CELLS_NO = 0
  · rw [if_pos hmod]
    exact ⟨_, rfl, rfl, rfl⟩
  · rw [if_neg hmod]
    exact ⟨_, rfl, rfl, rfl⟩

lemma runLines_clean {db : Int} (lines : List Line) :
    ∀ st : PState, (∀ l ∈ lines, lineClean l = true) →
    ∃ st', runLines db st lines = Except.ok st' ∧
      st'.lineCounter = st.lineCounter + dataCountFrom st.voltage lines ∧
      (st'.voltage.isSome = true ↔ (st.voltage.isSome = true ∨ 0 < countData lines)) := by
  induction lines with
  | nil =>
    intro st _
    refine ⟨st, rfl, ?_, ?_⟩
    · cases hv : st.voltage <;> simp [dataCountFrom, countData, hv]
    · simp [countData]
  | cons l ls ih =>
    intro st hcl
    have hcll : lineClean l = true := hcl l (by simp)
    have hcls : ∀ x ∈ ls, lineClean x = true := fun x hx => hcl x (by simp [hx])
    cases hd : isDataLine l with
    | false =>
      obtain ⟨st', h1, h2, h3⟩ := ih st hcls
      refine ⟨st', ?_, ?_, ?_⟩
      · unfold runLines
        rw [procLine_skip hd]
        exact h1
      · rw [h2]
        cases hv : st.voltage <;>
          simp [dataCountFrom, countData, List.countP_cons, hd]
      · rw [h3]
        simp [countData, List.countP_cons, hd]
    | true =>
      obtain ⟨q, rest, rfl⟩ := isDataLine_shape hd
      obtain ⟨row, hrow⟩ := parse_line_ok_of_clean hd hcll
      cases hv : st.voltage with
      | none =>
        obtain ⟨st', h1, h2, h3⟩ := ih { st with voltage := some row } hcls
        refine ⟨st', ?_, ?_, ?_⟩
        · unfold runLines
          rw [procLine_data_fresh hv hrow]
          exact h1
        · rw [h2]
          simp only [dataCountFrom, countData, List.countP_cons, hd]
          simp
        · rw [h3]
          simp [countData, List.countP_cons, hd]
      | some w =>
        obtain ⟨st1, hstep, hv1, hlc1⟩ := procLine_data_cell hv hrow
        obtain ⟨st', h1, h2, h3⟩ := ih st1 hcls
        refine ⟨st', ?_, ?_, ?_⟩
        · unfold runLines
          rw [hstep]
          exact h1
        · rw [h2, hlc1, hv1]
          simp only [dataCountFrom]
          have hcd : countData ((some q :: rest) :: ls) = countData ls + 1 := by
            simp [countData, List.countP_cons, hd]
          omega
        · rw [h3, hv1]
          simp [countData, List.countP_cons, hd, hv]

lemma parse_clean_core (name : List Char) (lines : List Line) (n : Nat)
    (hn : findBoardId name = some n) (hcl : ∀ l ∈ lines, lineClean l = true) :
    ∃ st, runLines (Int.ofNat n) initState lines = Except.ok st ∧
      st.blocks.length = completedBlockCount lines := by
  obtain ⟨st, h1, h2, _⟩ := @runLines_clean (Int.ofNat n) lines initState hcl
  have hI := runLines_inv h1 inv_init
  obtain ⟨hc, ht, _⟩ := hI
  refine ⟨st, h1, ?_⟩
  simp only [initState, dataCountFrom] at h2
  unfold completedBlockCount
  simp only [CELLS_NO] at hc ht ⊢
  omega

lemma parse_clean_main (name : List Char) (lines : List Line) (n : Nat)
    (hn : findBoardId name = some n) (hcl : ∀ l ∈ lines, lineClean l = true) :
    ((parse_calibration_file name lines).isOk ↔ completedBlockCount lines = VALUES_NO) ∧
    (completedBlockCount lines ≠ VALUES_NO →
      parse_calibration_file name lines =
        Except.error (PErr.countMismatch VALUES_NO (completedBlockCount lines))) := by
  obtain ⟨st, h1, h2⟩ := parse_clean_core name lines n hn hcl
  unfold parse_calibration_file
  simp only [hn, h1]
  by_cases hB : st.blocks.length = VALUES_NO
  · rw [if_pos hB]
    constructor
    · simp [Except.isOk, Except.toBool, ← h2, hB]
    · intro hne
      rw [← h2] at hne
      exact absurd hB hne
  · rw [if_neg hB]
    constructor
    · simp [Except.isOk, Except.toBool, ← h2, hB]
    · intro _
      rw [h2]

/-- Witness data: a file name carrying board id 7 through the _db pattern. -/
def wName : List Char := String.toList "cal_db7.txt"

/-- Witness data: one voltage line plus exactly 32 complete 64-line blocks;
every line is the single-token data line [some 0], which parses to the empty
row (split(" ")[:-1] drops the only token). -/
def bigLines : List Line := List.replicate (1 + VALUES_NO * CELLS_NO) ([some 0] : Line)

/-- Witness data: as bigLines plus one extra trailing cell data line. -/
def bigLines2 : List Line := List.replicate (1 + VALUES_NO * CELLS_NO + 1) ([some 0] : Line)

/-- The blocks that parsing bigLines under board id 7 produces. -/
def wBlocks : List ChannelRec :=
  (List.range VALUES_NO).map (fun g =>
    { db := 7, time_offset := 0, sampic := 1 - ((g / CHANNELS_NO : Nat) : Int),
      channel := ((g % 16 : Nat) : Int), cells := List.replicate CELLS_NO [] })

/-- The run that parsing bigLines under the name wName produces. -/
def wRun : CalRun := { db := 7, voltage := some [], blocks := wBlocks }

/-- Block number 17 of wRun: sampic 0, channel 1. -/
def wB17 : ChannelRec :=
  { db := 7, time_offset := 0, sampic := 0, channel := 1, cells := List.replicate CELLS_NO [] }

lemma countData_replicate (n : Nat) :
    countData (List.replicate n ([some 0] : Line)) = n := by
  induction n with
  | zero => rfl
  | succ k ih =>
    rw [List.replicate_succ]
    simp [countData, List.countP_cons, isDataLine] at ih ⊢
    omega

/-- C5: in every successfully parsed run, the block at 0-based ordinal g has
sampicIndex = 1 - (g / 16) and channelIndex = g % 16, so the 32 blocks run
through sampic 1 channels 0..15 and then sampic 0 channels 0..15. -/
theorem c5_positional_block_indices (name : List Char) (lines : List Line) (run : CalRun)
    (h : parse_calibration_file name lines = Except.ok run) (g : Nat) (b : ChannelRec)
    (hb : run.blocks[g]? = some b) :
    b.sampic = 1 - ((g / CHANNELS_NO : Nat) : Int) ∧
    b.channel = ((g % CHANNELS_NO : Nat) : Int) := by
  unfold parse_calibration_file at h
  cases hn : findBoardId name with
  | none =>
    simp only [hn] at h
    cases h
  | some n =>
    simp only [hn] at h
    cases hrun : runLines (Int.ofNat n) initState lines with
    | error e =>
      simp only [hrun] at h
      cases h
    | ok st =>
      simp only [hrun] at h
      by_cases hB : st.blocks.length = VALUES_NO
      · rw [if_pos hB] at h
        cases h
        have hI := runLines_inv hrun inv_init
        exact hI.2.2 g b hb
      · rw [if_neg hB] at h
        cases h

set_option maxRecDepth 100000 in
/-- Witness for C5: the concrete 2049-line input parses successfully and its
block 17 carries sampic 0 and channel 1 as the formulas dictate. -/
theorem c5_witness :
    parse_calibration_file wName bigLines = Except.ok wRun ∧
    wRun.blocks[17]? = some wB17 ∧
    wB17.sampic = 0 ∧ wB17.channel = 1 := by
  have h1 : parse_calibration_file wName bigLines = Except.ok wRun := by rfl
  have hb : wRun.blocks[17]? = some wB17 := by rfl
  have h := c5_positional_block_indices wName bigLines wRun h1 17 wB17 hb
  have hs := h.1
  have hc := h.2
  norm_num [CHANNELS_NO] at hs hc
  exact ⟨h1, hb, hs, hc⟩

/-- C3, counterexample to the stated iff: this 2049-line input holds exactly
32 completed 64-line cell blocks, yet parsing it under a file name without a
board id fails (with the board-id error, not a count mismatch). -/
theorem c3_counterexample :
    completedBlockCount bigLines = VALUES_NO ∧
    parse_calibration_file (String.toList "calibration.txt") bigLines =
      Except.error PErr.noBoardId := by
  constructor
  · unfold completedBlockCount bigLines
    rw [countData_replicate]
    rfl
  · rfl

/-- C3 (amended): for a file name that does carry a board id and input lines
that all tokenize cleanly, parsing succeeds iff the completed-block count is
CHANNELS_NO * SAMPIC_NO = 32, and on a mismatch the ParseError carries the
expected count 32 and the actual count. -/
theorem c3_block_count_gate (name : List Char) (lines : List Line)
    (hdb : (findBoardId name).isSome = true)
    (hcl : ∀ l ∈ lines, lineClean l = true) :
    ((parse_calibration_file name lines).isOk ↔ completedBlockCount lines = VALUES_NO) ∧
    (completedBlockCount lines ≠ VALUES_NO →
      parse_calibration_file name lines =
        Except.error (PErr.countMismatch VALUES_NO (completedBlockCount lines))) := by
  obtain ⟨n, hn⟩ := Option.isSome_iff_exists.mp hdb
  exact parse_clean_main name lines n hn hcl

/-- Witness for C3 (amended): the empty input under a board-carrying name
has 0 completed blocks; parsing fails and the error carries 32 and 0. -/
theorem c3_witness :
    ((parse_calibration_file (String.toList "run_db1.txt") []).isOk ↔
      completedBlockCount [] = VALUES_NO) ∧
    (completedBlockCount [] ≠ VALUES_NO →
      parse_calibration_file (String.toList "run_db1.txt") [] =
        Except.error (PErr.countMismatch VALUES_NO (completedBlockCount []))) :=
  c3_block_count_gate (String.toList "run_db1.txt") [] (by decide) (by simp)

/-- C4, counterexample: a name of the form ..._12... does NOT yield board id
12 — the regex requires the literal _db before the digits — while _db12
does; the _12 name fails with the board-id ParseError. -/
theorem c4_counterexample :
    findBoardId (String.toList "cal_12.txt") = none ∧
    parse_calibration_file (String.toList "cal_12.txt") [] = Except.error PErr.noBoardId ∧
    findBoardId (String.toList "cal_db12.txt") = some 12 :=
  ⟨rfl, rfl, rfl⟩

/-- C4 (amended): the board id is extracted from the file name by the
digits-after-_db pattern (case-insensitive); when the name has no such
match, parsing fails with the board-id ParseError and never defaults. -/
theorem c4_board_id_required (name : List Char) (lines : List Line)
    (h : findBoardId name = none) :
    parse_calibration_file name lines = Except.error PErr.noBoardId := by
  unfold parse_calibration_file
  simp only [h]

/-- Witness for C4 (amended): a digit-free name fails with the board-id
error. -/
theorem c4_witness :
    parse_calibration_file (String.toList "nodigits.txt") [] =
      Except.error PErr.noBoardId :=
  c4_board_id_required (String.toList "nodigits.txt") [] rfl

/-- C9: an input holding one voltage line, 32 complete 64-line groups and
between 1 and 63 extra trailing cell data lines still parses successfully
into exactly 32 blocks: the incomplete final group is silently discarded. -/
theorem c9_trailing_partial_block_discarded (name : List Char) (lines : List Line) (t : Nat)
    (hdb : (findBoardId name).isSome = true)
    (hcl : ∀ l ∈ lines, lineClean l = true)
    (hcount : countData lines = 1 + VALUES_NO * CELLS_NO + t)
    (ht1 : 1 ≤ t) (ht2 : t ≤ 63) :
    (parse_calibration_file name lines).toOption.map (fun r => r.blocks.length) =
      some VALUES_NO := by
  obtain ⟨n, hn⟩ := Option.isSome_iff_exists.mp hdb
  obtain ⟨st, h1, h2⟩ := parse_clean_core name lines n hn hcl
  have hB : st.blocks.length = VALUES_NO := by
    rw [h2]
    unfold completedBlockCount
    rw [hcount]
    simp only [VALUES_NO, CELLS_NO, CHANNELS_NO, SAMPIC_NO]
    omega
  unfold parse_calibration_file
  simp only [hn, h1, if_pos hB]
  simp [Except.toOption, hB]

/-- Witness for C9: the 2050-line input (one trailing extra cell line)
parses into exactly 32 blocks. -/
theorem c9_witness :
    (parse_calibration_file wName bigLines2).toOption.map (fun r => r.blocks.length) =
      some VALUES_NO :=
  c9_trailing_partial_block_discarded wName bigLines2 1 (by decide)
    (fun l hl => by rw [List.eq_of_mem_replicate hl]; decide)
    (countData_replicate _) (by decide) (by decide)

lemma maxesOf_eq (pd : List CalRun)
    (hv : ∀ r ∈ pd, ∃ x xs, r.voltage = some (x :: xs)) :
    maxesOf pd = Except.ok (pd.map maxVolt) := by
  induction pd with
  | nil => rfl
  | cons r rs ih =>
    obtain ⟨x, xs, hx⟩ := hv r (by simp)
    have ih' := ih (fun a ha => hv a (by simp [ha]))
    unfold maxesOf
    simp only [hx, ih']
    simp [maxVolt, hx]

lemma handle_none_eq (pd : List CalRun) (ff : Option Rat) (hne : pd ≠ [])
    (hv : ∀ r ∈ pd, ∃ x xs, r.voltage = some (x :: xs)) :
    handle_optional_parameters pd ff none = Except.ok (ff.getD 0, batchFitTo pd) := by
  cases pd with
  | nil => exact absurd rfl hne
  | cons r rs =>
    unfold handle_optional_parameters
    simp only [maxesOf_eq (r :: rs) hv, List.map_cons]
    simp [batchFitTo]

lemma foldl_min_le_init (ms : List Rat) (m : Rat) : ms.foldl min m ≤ m := by
  induction ms generalizing m with
  | nil => simp
  | cons a as ih =>
    rw [List.foldl_cons]
    exact le_trans (ih (min m a)) (min_le_left _ _)

lemma foldl_min_le (ms : List Rat) (m x : Rat) (h : x = m ∨ x ∈ ms) :
    ms.foldl min m ≤ x := by
  induction ms generalizing m with
  | nil =>
    rcases h with rfl | h
    · simp
    · simp at h
  | cons a as ih =>
    rw [List.foldl_cons]
    rcases h with rfl | h
    · exact le_trans (foldl_min_le_init as (min x a)) (min_le_left _ _)
    · rcases List.mem_cons.mp h with rfl | hx
      · exact le_trans (foldl_min_le_init as (min m x)) (min_le_right _ _)
      · exact ih (min m a) (Or.inr hx)

lemma batchFitTo_le (pd : List CalRun) (r : CalRun) (hr : r ∈ pd) :
    batchFitTo pd ≤ maxVolt r := by
  cases pd with
  | nil => simp at hr
  | cons a as =>
    show (List.map maxVolt as).foldl min (maxVolt a) ≤ maxVolt r
    rcases List.mem_cons.mp hr with rfl | hx
    · exact foldl_min_le _ _ _ (Or.inl rfl)
    · exact foldl_min_le _ _ _ (Or.inr (List.mem_map_of_mem _ hx))

/-- C7: over a non-empty batch of parsed runs (each with a non-empty voltage
reference), an absent fitFrom resolves to 0, an absent fitTo resolves to the
minimum over the batch of each run's maximum voltage value, and an
explicitly supplied bound is returned unchanged. -/
theorem c7_bound_defaults (pd : List CalRun) (ff ft : Option Rat) (hne : pd ≠ [])
    (hv : ∀ r ∈ pd, ∃ x xs, r.voltage = some (x :: xs)) :
    handle_optional_parameters pd ff ft = Except.ok (ff.getD 0, ft.getD (batchFitTo pd)) := by
  cases ft with
  | some t => rfl
  | none => exact handle_none_eq pd ff hne hv

/-- Witness data for the bound-resolution claims: a one-run batch whose
voltage reference is [2]. -/
def runW7 : CalRun := { db := 1, voltage := some [2], blocks := [] }

/-- Witness for C7: with both bounds absent, the batch [runW7] resolves to
fitFrom 0 and fitTo 2 (the run's maximum voltage). -/
theorem c7_witness :
    handle_optional_parameters [runW7] none none = Except.ok (0, 2) :=
  c7_bound_defaults [runW7] none none (by simp)
    (by
      intro r hr
      simp only [List.mem_singleton] at hr
      subst hr
      exact ⟨2, [], rfl⟩)

/-- Witness data for the C6 counterexample: a run whose maximum voltage
is 1. -/
def runW6 : CalRun := { db := 1, voltage := some [1], blocks := [] }

/-- C6, counterexample: with an explicit fitTo of 5 over a batch whose
smallest per-run maximum voltage is 1, bound resolution returns fitTo 5,
exceeding that maximum — explicit bounds are not clamped. -/
theorem c6_counterexample :
    handle_optional_parameters [runW6] none (some 5) = Except.ok (0, 5) ∧
    batchFitTo [runW6] = 1 ∧ (1 : Rat) < 5 :=
  ⟨rfl, rfl, by norm_num⟩

/-- C6 (amended): when fitTo is absent, the resolved fitTo equals the batch
minimum of the per-run maxima and hence never exceeds any run's maximum
voltage; an explicitly supplied fitTo is returned as given and may exceed
it. -/
theorem c6_defaulted_bound_clamped (pd : List CalRun) (ff : Option Rat) (hne : pd ≠ [])
    (hv : ∀ r ∈ pd, ∃ x xs, r.voltage = some (x :: xs)) (r : CalRun) (hr : r ∈ pd) :
    handle_optional_parameters pd ff none = Except.ok (ff.getD 0, batchFitTo pd) ∧
    batchFitTo pd ≤ maxVolt r :=
  ⟨handle_none_eq pd ff hne hv, batchFitTo_le pd r hr⟩

/-- Witness for C6 (amended): the defaulted fitTo over [runW6] is 1, which
does not exceed the run's maximum voltage. -/
theorem c6_witness :
    handle_optional_parameters [runW6] none none = Except.ok (0, 1) ∧
    batchFitTo [runW6] ≤ maxVolt runW6 :=
  c6_defaulted_bound_clamped [runW6] none (by simp)
    (by
      intro r hr
      simp only [List.mem_singleton] at hr
      subst hr
      exact ⟨1, [], rfl⟩)
    runW6 (by simp)

/-- C8: conversion invokes the external fit capability, for every cell of
every block in fixed order, on the voltage values sorted ascending and the
cell values sorted ascending, each list sorted independently of the other
(each sorted list is an ascending permutation of its own input only). -/
theorem c8_independent_sorting (run : CalRun) (f : String) (fit : FitFun)
    (v : List Rat) (c : List Rat) (hv : run.voltage = some v) :
    convert_calibration_file run f fit = some
      { formula := f
        parameters := [(JKey.int run.db, run.blocks.map (fun b =>
          { b with cells := b.cells.map (fun cell => fit (sortedR v) (sortedR cell)) }))] } ∧
    (sortedR v).Sorted (· ≤ ·) ∧ List.Perm (sortedR v) v ∧
    (sortedR c).Sorted (· ≤ ·) ∧ List.Perm (sortedR c) c := by
  refine ⟨?_, ?_, ?_, ?_, ?_⟩
  · unfold convert_calibration_file
    rw [hv]
    rfl
  · exact List.sorted_insertionSort _ _
  · exact List.perm_insertionSort _ _
  · exact List.sorted_insertionSort _ _
  · exact List.perm_insertionSort _ _

/-- Witness data for C8: a run with voltage [2, 1] and a concatenating fit
oracle. -/
def runW8 : CalRun := { db := 3, voltage := some [2, 1], blocks := [] }

/-- Witness data for C8: a fit oracle that records both arguments. -/
def fitCat : FitFun := fun x y => x ++ y

/-- Witness for C8 at the concrete run runW8 and cell [5, 4]. -/
theorem c8_witness :
    convert_calibration_file runW8 "pol1" fitCat = some
      { formula := "pol1"
        parameters := [(JKey.int runW8.db, runW8.blocks.map (fun b =>
          { b with cells := b.cells.map (fun cell => fitCat (sortedR [2, 1]) (sortedR cell)) }))] } ∧
    (sortedR [2, 1]).Sorted (· ≤ ·) ∧ List.Perm (sortedR [2, 1]) [2, 1] ∧
    (sortedR [5, 4]).Sorted (· ≤ ·) ∧ List.Perm (sortedR [5, 4]) [5, 4] :=
  c8_independent_sorting runW8 "pol1" fitCat [2, 1] [5, 4] rfl

lemma mergeKeysLoop_ok {mk : List JKey} {mp ps : List (JKey × List ChannelRec)}
    {mk' : List JKey} {mp' : List (JKey × List ChannelRec)}
    (h : mergeKeysLoop mk mp ps = Except.ok (mk', mp')) :
    (∀ k ∈ ps.map Prod.fst, k ∉ mk) ∧
    (∀ k, (k ∈ mk ∨ k ∈ ps.map Prod.fst) → k ∈ mk') := by
  induction ps generalizing mk mp with
  | nil =>
    cases h
    exact ⟨by simp, fun k hk => by simpa using hk⟩
  | cons p ps ih =>
    obtain ⟨k0, v0⟩ := p
    unfold mergeKeysLoop at h
    by_cases hk0 : k0 ∈ mk
    · rw [if_pos hk0] at h
      cases h
    · rw [if_neg hk0] at h
      obtain ⟨h1, h2⟩ := ih h
      constructor
      · intro k hk
        simp only [List.map_cons] at hk
        rcases List.mem_cons.mp hk with rfl | hk2
        · exact hk0
        · intro hmem
          exact h1 k hk2 (by simp [hmem])
      · intro k hk
        rcases hk with hk | hk
        · exact h2 k (Or.inl (by simp [hk]))
        · simp only [List.map_cons] at hk
          rcases List.mem_cons.mp hk with rfl | hk2
          · exact h2 k (Or.inl (by simp))
          · exact h2 k (Or.inr hk2)

lemma mergeKeysLoop_err {mk : List JKey} {mp ps : List (JKey × List ChannelRec)}
    {e : MergeErr} (h : mergeKeysLoop mk mp ps = Except.error e) :
    e = MergeErr.conflict := by
  induction ps generalizing mk mp with
  | nil => cases h
  | cons p ps ih =>
    obtain ⟨k0, v0⟩ := p
    unfold mergeKeysLoop at h
    by_cases hk0 : k0 ∈ mk
    · rw [if_pos hk0] at h
      cases h
      rfl
    · rw [if_neg hk0] at h
      exact ih h

lemma mergeArtLoop_ok {mk : List JKey} {acc : CalibrationArtifact}
    {as : List CalibrationArtifact} {m : CalibrationArtifact}
    (h : mergeArtLoop mk acc as = Except.ok m) :
    (∀ a ∈ as, ∀ k ∈ keysOf a, k ∉ mk) ∧
    List.Pairwise (fun a b => ∀ k ∈ keysOf a, k ∉ keysOf b) as := by
  induction as generalizing mk acc with
  | nil => exact ⟨by simp, List.Pairwise.nil⟩
  | cons a as ih =>
    unfold mergeArtLoop at h
    cases hkl : mergeKeysLoop mk acc.parameters a.parameters with
    | error e => rw [hkl] at h; cases h
    | ok pr =>
      obtain ⟨mk', mp'⟩ := pr
      rw [hkl] at h
      obtain ⟨hka, hsup⟩ := mergeKeysLoop_ok hkl
      obtain ⟨hrest, hpw⟩ := ih h
      refine ⟨?_, ?_⟩
      · intro x hx k hk
        rcases List.mem_cons.mp hx with rfl | hx2
        · exact hka k hk
        · intro hmem
          exact hrest x hx2 k hk (hsup k (Or.inl hmem))
      · refine List.Pairwise.cons ?_ hpw
        intro b hb k hk hkb
        exact hrest b hb k hkb (hsup k (Or.inr hk))

lemma mergeArtLoop_err {mk : List JKey} {acc : CalibrationArtifact}
    {as : List CalibrationArtifact} {e : MergeErr}
    (h : mergeArtLoop mk acc as = Except.error e) : e = MergeErr.conflict := by
  induction as generalizing mk acc with
  | nil => cases h
  | cons a as ih =>
    unfold mergeArtLoop at h
    cases hkl : mergeKeysLoop mk acc.parameters a.parameters with
    | error e2 =>
      rw [hkl] at h
      cases h
      exact mergeKeysLoop_err hkl
    | ok pr =>
      obtain ⟨mk', mp'⟩ := pr
      rw [hkl] at h
      exact ih h

lemma merge_ok_pairwise {xs : List CalibrationArtifact} {m : CalibrationArtifact}
    (h : merge xs = Except.ok m) :
    List.Pairwise (fun a b => ∀ k ∈ keysOf a, k ∉ keysOf b) xs := by
  unfold merge at h
  cases hl : xs.getLast? with
  | none =>
    rw [hl] at h
    cases h
  | some base =>
    rw [hl] at h
    obtain ⟨hbase, hpw⟩ := mergeArtLoop_ok h
    have hne : xs ≠ [] := by
      intro hx
      rw [hx] at hl
      cases hl
    have hxs : xs.dropLast ++ [base] = xs := by
      have hlast := List.getLast?_eq_getLast xs hne
      rw [hl] at hlast
      cases hlast
      exact List.dropLast_append_getLast hne
    rw [← hxs]
    rw [List.pairwise_append]
    refine ⟨hpw, by simp, ?_⟩
    intro a ha b hb
    simp only [List.mem_singleton] at hb
    subst hb
    exact fun k hk => hbase a ha k hk

lemma merge_err_of_nonempty {xs : List CalibrationArtifact} {e : MergeErr}
    (hne : xs ≠ []) (h : merge xs = Except.error e) : e = MergeErr.conflict := by
  unfold merge at h
  cases hl : xs.getLast? with
  | none =>
    exact absurd (List.getLast?_eq_none_iff.mp hl) hne
  | some base =>
    rw [hl] at h
    exact mergeArtLoop_err h

/-- C2: whenever two artifacts at distinct positions of the merge input
share a board key, merge raises the FileMergeException (and hence produces
no merged artifact and never silently overwrites a board entry). -/
theorem c2_merge_conflict (xs : List CalibrationArtifact) (i j : Nat)
    (hi : i < xs.length) (hj : j < xs.length) (hij : i ≠ j) (k : JKey)
    (hki : k ∈ keysOf xs[i]) (hkj : k ∈ keysOf xs[j]) :
    merge xs = Except.error MergeErr.conflict := by
  have hne : xs ≠ [] := by
    intro hx
    rw [hx] at hi
    exact absurd hi (by simp)
  cases hm : merge xs with
  | ok m =>
    have hpw := merge_ok_pairwise hm
    rw [List.pairwise_iff_getElem] at hpw
    rcases Nat.lt_or_ge i j with hlt | hge
    · exact absurd hkj (hpw i j hi hj hlt k hki)
    · have hlt : j < i := Nat.lt_of_le_of_ne hge (fun hh => hij hh.symm)
      exact absurd hki (hpw j i hj hi hlt k hkj)
  | error e =>
    rw [merge_err_of_nonempty hne hm]

/-- Witness data for C2: two artifacts sharing the board key int 5. -/
def artA : CalibrationArtifact := { formula := "pol1", parameters := [(JKey.int 5, [])] }

/-- Witness data for C2: a second artifact with the same board key. -/
def artB : CalibrationArtifact := { formula := "pol1", parameters := [(JKey.int 5, [])] }

/-- Witness for C2: merging the two artifacts sharing board key 5 raises the
merge-conflict error. -/
theorem c2_witness :
    (0 : Nat) ≠ 1 ∧ JKey.int 5 ∈ keysOf artA ∧ JKey.int 5 ∈ keysOf artB ∧
    merge [artA, artB] = Except.error MergeErr.conflict := by
  refine ⟨by decide, by simp [keysOf, artA], by simp [keysOf, artB], ?_⟩
  exact c2_merge_conflict [artA, artB] 0 1 (by norm_num) (by norm_num) (by decide)
    (JKey.int 5) (by simp [keysOf, artA]) (by simp [keysOf, artB])

lemma rowRT (row : List Rat) : mapMO decNum (row.map Json.jnum) = some row := by
  induction row with
  | nil => rfl
  | cons q qs ih => simp [mapMO, decNum, ih]

lemma cellsRT (cells : List (List Rat)) :
    mapMO (fun r => match r with
      | Json.jarr vs => mapMO decNum vs
      | _ => none) (cells.map (fun row => Json.jarr (row.map Json.jnum))) = some cells := by
  induction cells with
  | nil => rfl
  | cons row rest ih => simp [mapMO, rowRT, ih]

lemma recRT (r : ChannelRec) : decRec (encRec r) = some r := by
  simp [decRec, encRec, getField, decInt, cellsRT]

lemma recsRT (rs : List ChannelRec) : mapMO decRec (rs.map encRec) = some rs := by
  induction rs with
  | nil => rfl
  | cons r rest ih => simp [mapMO, recRT, ih]

lemma decEntry_enc (p : JKey × List ChannelRec) :
    decEntry (encKey p.1, Json.jarr (p.2.map encRec)) = some (JKey.str (encKey p.1), p.2) := by
  simp [decEntry, recsRT]

lemma entriesRT (ps : List (JKey × List ChannelRec)) :
    mapMO decEntry (ps.map (fun p => (encKey p.1, Json.jarr (p.2.map encRec)))) =
      some (ps.map (fun p => (JKey.str (encKey p.1), p.2))) := by
  induction ps with
  | nil => rfl
  | cons p rest ih => simp [mapMO, decEntry_enc, ih]

lemma decode_encode (a : CalibrationArtifact) : decode (encode a) = some (strKeys a) := by
  unfold decode encode
  simp [getField, entriesRT, strKeys]

/-- C1 (amended): decoding the JSON encoding of an artifact yields the
artifact with every parameters key replaced by the string json.dump writes
for it — an integer board key comes back as its decimal string, a string key
comes back unchanged — and every other field is reproduced exactly. -/
theorem c1_roundtrip_stringifies_keys (a : CalibrationArtifact) :
    decode (encode a) = some (strKeys a) :=
  decode_encode a

/-- A trivial external fit capability used in concrete artifacts: every cell
fits to the two parameters [0, 0]. -/
def fit00 : FitFun := fun _ _ => [0, 0]

set_option maxRecDepth 400000 in
/-- C1, counterexample: the artifact converted from the full 32-block run
wRun (board key int 7) does not decode back to itself — its integer board
key comes back as the string "7". -/
theorem c1_counterexample :
    (convert_calibration_file wRun "pol1" fit00).isSome = true ∧
    decode (encode ((convert_calibration_file wRun "pol1" fit00).getD
        { formula := "", parameters := [] })) ≠
      some ((convert_calibration_file wRun "pol1" fit00).getD
        { formula := "", parameters := [] }) := by
  constructor
  · rfl
  · decide

lemma merge_pair_distinct (g f : String) (k1 k2 : JKey) (h : k1 ≠ k2)
    (r1 r2 : List ChannelRec) :
    merge [{ formula := f, parameters := [(k1, r1)] },
           { formula := g, parameters := [(k2, r2)] }] =
      Except.ok { formula := g, parameters := [(k2, r2), (k1, r1)] } := by
  simp [merge, mergeArtLoop, mergeKeysLoop, keysOf, h]

/-- C10: a freshly converted artifact keys its parameters by the integer
board id while its decoded JSON image keys them by the decimal string, the
merge conflict check compares keys by exact equality, and therefore merging
the converted artifact with its own loaded image raises no conflict and the
merged mapping holds both the integer key and the string key for the same
physical board. -/
theorem c10_int_str_key_mismatch (run : CalRun) (f : String) (fit : FitFun)
    (v : List Rat) (hv : run.voltage = some v)
    (A A2 : CalibrationArtifact)
    (hA : convert_calibration_file run f fit = some A)
    (hA2 : decode (encode A) = some A2) :
    merge [A, A2] = Except.ok { formula := f, parameters := A2.parameters ++ A.parameters } ∧
    JKey.int run.db ∈ (A2.parameters ++ A.parameters).map Prod.fst ∧
    JKey.str (toString run.db) ∈ (A2.parameters ++ A.parameters).map Prod.fst := by
  unfold convert_calibration_file at hA
  rw [hv] at hA
  simp only [Option.map_some', Option.some.injEq] at hA
  subst hA
  rw [decode_encode] at hA2
  simp only [Option.some.injEq] at hA2
  subst hA2
  refine ⟨?_, ?_, ?_⟩
  · simp only [strKeys, encKey, List.map_cons, List.map_nil]
    exact merge_pair_distinct f f (JKey.int run.db) (JKey.str (toString run.db)) (by simp) _ _
  · simp [strKeys, encKey]
  · simp [strKeys, encKey]

/-- Witness data for C10: a minimal run for board 5. -/
def runW10 : CalRun := { db := 5, voltage := some [], blocks := [] }

/-- Witness data for C10: the artifact converted from runW10. -/
def artConv : CalibrationArtifact := { formula := "pol1", parameters := [(JKey.int 5, [])] }

/-- Witness data for C10: the decoded JSON image of artConv. -/
def artLoad : CalibrationArtifact := { formula := "pol1", parameters := [(JKey.str "5", [])] }

/-- Witness for C10: merging the converted artifact with its loaded image
succeeds and the merged mapping carries both the int key and the str key. -/
theorem c10_witness :
    merge [artConv, artLoad] =
      Except.ok { formula := "pol1", parameters := artLoad.parameters ++ artConv.parameters } ∧
    JKey.int runW10.db ∈ (artLoad.parameters ++ artConv.parameters).map Prod.fst ∧
    JKey.str (toString runW10.db) ∈ (artLoad.parameters ++ artConv.parameters).map Prod.fst :=
  c10_int_str_key_mismatch runW10 "pol1" fitCat [] rfl artConv artLoad rfl rfl

end ToCalJson
